import Mathlib

/-!
Shallow embedding of the `multiplex-websocket` package
(`src/index.ts`, `src/multiplex-websocket-dispatcher.ts`,
`src/multiplex-websocket-channel.ts`).

Byte buffers (`ArrayBuffer` / `Buffer`) are modelled as `List Nat` where
each entry is one byte.  Machine integers are `Nat` with explicit range
hypotheses where the JavaScript runtime enforces them
(`Buffer.writeUInt8` / `writeUInt32BE` throw on out-of-range values).
-/

namespace MultiplexWebSocket

/-- The `MultiplexWebSocketOpcode` enum of `src/index.ts` (and identically
`src/multiplex-websocket-dispatcher.ts`).  TypeScript assigns the numeric
values 0..4 in declaration order. -/
inductive Opcode where
  | CreateChannel
  | CloseChannel
  | Data
  | ChannelBufferFull
  | ChannelBufferEmpty
deriving DecidableEq, Repr

/-- The runtime numeric value of an opcode (TypeScript enums are numbers). -/
def Opcode.toNat : Opcode → Nat
  | .CreateChannel => 0
  | .CloseChannel => 1
  | .Data => 2
  | .ChannelBufferFull => 3
  | .ChannelBufferEmpty => 4

/-- The partial inverse of `Opcode.toNat`: which byte values name one of the
five declared opcodes.  (The decoder in the source does NOT apply this check;
it is used to state claims about recognized opcodes.) -/
def Opcode.ofNat? : Nat → Option Opcode
  | 0 => some .CreateChannel
  | 1 => some .CloseChannel
  | 2 => some .Data
  | 3 => some .ChannelBufferFull
  | 4 => some .ChannelBufferEmpty
  | _ => none

/-- Big-endian 32-bit encoding, as performed by `Buffer.writeUInt32BE`. -/
def encodeUInt32BE (n : Nat) : List Nat :=
  [n / 2 ^ 24 % 256, n / 2 ^ 16 % 256, n / 2 ^ 8 % 256, n % 256]

/-- Big-endian 32-bit decoding, as performed by `DataView.getUint32(·, false)`. -/
def decodeUInt32BE (b0 b1 b2 b3 : Nat) : Nat :=
  ((b0 * 256 + b1) * 256 + b2) * 256 + b3

/-- `MultiplexWebSocketMessage`: one wire frame.  The `opcode` field is a raw
byte (`Nat`): at runtime a TypeScript enum value is just a number, and
`parse` stores whatever byte the wire carried without validation.  `local`
is the origin flag (`true` encoded as byte 0).  `data` is `none` for
control messages built by `sendControlMessage` (the constructor's optional
argument omitted). -/
structure Message where
  opcode : Nat
  local_flag : Bool
  id : Nat
  data : Option (List Nat)
deriving DecidableEq, Repr

/-- `MultiplexWebSocketMessage.toBuffer`.  Returns `none` when the runtime
`Buffer.writeUInt8` / `writeUInt32BE` calls would throw a range error
(opcode not a byte, or id not a u32). -/
def Message.toBuffer (m : Message) : Option (List Nat) :=
  if m.opcode < 256 ∧ m.id < 2 ^ 32 then
    some ([m.opcode, if m.local_flag then 0 else 1] ++ encodeUInt32BE m.id ++ m.data.getD [])
  else
    none

/-- `MultiplexWebSocketMessage.parse`.  Reads byte 0 as the opcode (no
validation), byte 1 as the origin flag (`=== 0`), bytes 2..5 as a
big-endian u32, and the rest as payload.  `DataView.getUint8/getUint32`
throw a `RangeError` when the buffer is shorter than 6 bytes, which is
modelled as `none`. -/
def Message.parse (buffer : List Nat) : Option Message :=
  match buffer with
  | b0 :: b1 :: b2 :: b3 :: b4 :: b5 :: rest =>
      some ⟨b0, b1 == 0, decodeUInt32BE b2 b3 b4 b5, some rest⟩
  | _ => none

/-! ## The send scheduler (`MultiplexWebSocketDispatcher`)

`PromiseResolver`s are modelled by numeric identities (`resolverId`); the
scheduler's effects on them (resolve/reject) are reported as explicit
`Completion` events.  `local` fields are named `isLocal` (`local` is a
Lean keyword). -/

/-- `MultiplexWebSocketSendTask`: one pending write. -/
structure SendTask where
  resolverId : Nat
  data : List Nat
deriving DecidableEq, Repr

/-- `MultiplexWebSocketSendQueue`. -/
structure SendQueue where
  isLocal : Bool
  id : Nat
  queue : List SendTask
  remoteFull : Bool
  lastSendTime : Nat
deriving DecidableEq, Repr

/-- `MultiplexWebSocketSendQueue.enqueue` (pushes one task; the fresh
resolver is identified by `rid`). -/
def SendQueue.enqueue (q : SendQueue) (rid : Nat) (data : List Nat) : SendQueue :=
  { q with queue := q.queue ++ [⟨rid, data⟩] }

/-- The dispatcher state: the queue table `_queues` and the control queue
`_controlQueue`, in insertion order. -/
structure DispatcherState where
  queues : List SendQueue
  controlQueue : List Message
deriving DecidableEq, Repr

/-- The control message built by `sendControlMessage`:
`new MultiplexWebSocketMessage(opcode, local, id)` (no payload). -/
def mkControlMessage (isLocal : Bool) (id : Nat) (op : Opcode) : Message :=
  ⟨op.toNat, isLocal, id, none⟩

/-- `MultiplexWebSocketDispatcher.sendControlMessage`: append the control
frame to `_controlQueue`. -/
def DispatcherState.sendControlMessage (s : DispatcherState) (isLocal : Bool) (id : Nat)
    (op : Opcode) : DispatcherState :=
  { s with controlQueue := s.controlQueue ++ [mkControlMessage isLocal id op] }

/-- Applies `f` to the first list entry satisfying `p`, as mutating the
object returned by `Array.prototype.find` does. -/
def updateFirst (p : α → Bool) (f : α → α) : List α → List α
  | [] => []
  | x :: xs => if p x then f x :: xs else x :: updateFirst p f xs

/-- The queue-table lookup predicate `x => x.local === local && x.id === id`. -/
def queueKeyIs (isLocal : Bool) (id : Nat) (q : SendQueue) : Bool :=
  q.isLocal == isLocal && q.id == id

/-- `MultiplexWebSocketDispatcher.handleControlMessage`: on the first queue
matching `(local, id)`, set `remoteFull` to
`opcode === ChannelBufferFull ? true : false`; no queue found is a no-op. -/
def DispatcherState.handleControlMessage (s : DispatcherState) (isLocal : Bool) (id : Nat)
    (op : Opcode) : DispatcherState :=
  let setFull : SendQueue → SendQueue := fun q => { q with remoteFull := op == .ChannelBufferFull }
  { s with queues := updateFirst (queueKeyIs isLocal id) setFull s.queues }

/-- `MultiplexWebSocketDispatcher.send`: throws `cannot write after end`
when no queue matches, else enqueues onto the matching queue (the returned
promise is the pending resolver `rid`). -/
def DispatcherState.send (s : DispatcherState) (isLocal : Bool) (id : Nat) (rid : Nat)
    (data : List Nat) : Except String DispatcherState :=
  match s.queues.find? (queueKeyIs isLocal id) with
  | none => .error "cannot write after end"
  | some _ =>
      .ok { s with queues := updateFirst (queueKeyIs isLocal id) (fun q => q.enqueue rid data) s.queues }

/-- The filter predicate of the data pass:
`x => !x.remoteFull && x.length` (a non-zero length is truthy). -/
def isPending (q : SendQueue) : Bool :=
  !q.remoteFull && q.queue.length != 0

/-- Stable insertion of a queue into a list sorted by `lastSendTime`
ascending. -/
def insertByTime (x : SendQueue) : List SendQueue → List SendQueue
  | [] => [x]
  | y :: ys =>
      if x.lastSendTime ≤ y.lastSendTime then x :: y :: ys else y :: insertByTime x ys

/-- `pending.sort((a, b) => a.lastSendTime - b.lastSendTime)`:
`Array.prototype.sort` is stable (ES2019), modelled by a stable insertion
sort. -/
def sortByTime : List SendQueue → List SendQueue
  | [] => []
  | x :: xs => insertByTime x (sortByTime xs)

/-- The candidate selection of one data-pass iteration: filter, stable
sort by `lastSendTime`, take `pending[0]`. -/
def selectCandidate (s : DispatcherState) : Option SendQueue :=
  (sortByTime (s.queues.filter isPending)).head?

/-- The first entry of a queue list attaining the minimal `lastSendTime`
(the reference characterization of `pending.sort(...)[0]`). -/
def firstMin : List SendQueue → Option SendQueue
  | [] => none
  | x :: xs =>
      match firstMin xs with
      | none => some x
      | some m => if x.lastSendTime ≤ m.lastSendTime then some x else some m

/-- The outcome of one iteration of the `processQueues` loop. -/
inductive StepResult where
  /-- `break` because `_processingControlQueue` was set at the loop top. -/
  | yieldToControl
  /-- `break` because no queue is pending. -/
  | idle
  /-- The frame was sent; the dequeued task's resolver is resolved. -/
  | sent (frame : Message) (resolvedRid : Nat) (s : DispatcherState)
  /-- The backpressure wait (or the send) threw; the dequeued task's
  resolver is rejected. -/
  | failed (rejectedRid : Nat) (s : DispatcherState)
deriving DecidableEq, Repr

/-- One iteration of `MultiplexWebSocketDispatcher.processQueues` from
`src/index.ts` (lines 250-277).  `pcq` is `_processingControlQueue` as read
at the loop top; `now` is `Date.now()` at the send; `sendOk` is whether the
backpressure wait and the socket send succeeded.  The dequeue cannot miss
(`dequeue()!`): the selected queue passed the non-empty filter. -/
def processQueuesStep (s : DispatcherState) (pcq : Bool) (now : Nat) (sendOk : Bool) :
    StepResult :=
  if pcq then .yieldToControl
  else
    match selectCandidate s with
    | none => .idle
    | some candidate =>
        match candidate.queue with
        | [] => .idle
        | task :: rest =>
            if sendOk then
              let frame : Message :=
                ⟨(if candidate.lastSendTime == 0 then Opcode.CreateChannel
                  else Opcode.Data).toNat,
                 candidate.isLocal, candidate.id, some task.data⟩
              let updated := { candidate with queue := rest, lastSendTime := now }
              let queues := updateFirst (· == candidate) (fun _ => updated) s.queues
              .sent frame task.resolverId { s with queues := queues }
            else
              let shortened := { candidate with queue := rest }
              let queues := updateFirst (· == candidate) (fun _ => shortened) s.queues
              .failed task.resolverId { s with queues := queues }

/-- One iteration of `MultiplexWebSocketDispatcher.processQueues` from
`src/multiplex-websocket-dispatcher.ts` (lines 161-196).  Identical to the
`index.ts` version except for the opcode choice:
`candidate.local && candidate.lastSendTime === 0`. -/
def processQueuesStepM (s : DispatcherState) (pcq : Bool) (now : Nat) (sendOk : Bool) :
    StepResult :=
  if pcq then .yieldToControl
  else
    match selectCandidate s with
    | none => .idle
    | some candidate =>
        match candidate.queue with
        | [] => .idle
        | task :: rest =>
            if sendOk then
              let frame : Message :=
                ⟨(if candidate.isLocal && candidate.lastSendTime == 0 then
                    Opcode.CreateChannel
                  else Opcode.Data).toNat,
                 candidate.isLocal, candidate.id, some task.data⟩
              let updated := { candidate with queue := rest, lastSendTime := now }
              let queues := updateFirst (· == candidate) (fun _ => updated) s.queues
              .sent frame task.resolverId { s with queues := queues }
            else
              let shortened := { candidate with queue := rest }
              let queues := updateFirst (· == candidate) (fun _ => shortened) s.queues
              .failed task.resolverId { s with queues := queues }

/-- One iteration of the `index.ts` data loop together with the behaviour
of `_processingControlQueue` over time: `pcqAtTop` is its value when the
iteration begins (read at line 251), `pcqDuringWait` is its value while the
iteration is suspended in `waitWebSocketBufferAmountLow` before the send.
The source consults the flag only at the loop top, so the iteration is the
same function regardless of `pcqDuringWait`. -/
def processQueuesStepRace (s : DispatcherState) (pcqAtTop pcqDuringWait : Bool)
    (now : Nat) (sendOk : Bool) : StepResult :=
  processQueuesStep s pcqAtTop now sendOk

/-! ## The connection (`MultiplexWebSocket`) and channel lifecycle

`MultiplexWebSocketChannel`'s identity is its `(local, id)` pair; a channel
present in the connection's `_channels` table has not finished (once
`_final` runs the `close` handlers remove it from the table). -/

/-- A live channel as kept in `MultiplexWebSocket._channels`. -/
structure ChannelState where
  isLocal : Bool
  id : Nat
deriving DecidableEq, Repr

/-- Removes the first entry satisfying `p`
(`indexOf` + `splice(index, 1)` in the `close` handlers). -/
def removeFirst {α : Type} (p : α → Bool) : List α → List α
  | [] => []
  | x :: xs => if p x then xs else x :: removeFirst p xs

/-- `MultiplexWebSocket` state: the channel table and the dispatcher. -/
structure ConnectionState where
  channels : List ChannelState
  dispatcher : DispatcherState
deriving DecidableEq, Repr

/-- The lookup predicate of the inbound `Data`/`CloseChannel` cases:
`x => x.local !== message.local && x.id === message.id`. -/
def chanMatches (msgLocal : Bool) (msgId : Nat) (c : ChannelState) : Bool :=
  c.isLocal != msgLocal && c.id == msgId

/-- `MultiplexWebSocketChannel._final` plus the `close` handlers it triggers
through `destroy()`: enqueue a `CloseChannel` control frame for the
channel's own `(local, id)`, then remove the channel from the connection's
table and its send queue from the dispatcher's table. -/
def channelFinal (c : ChannelState) (s : ConnectionState) : ConnectionState :=
  let d := s.dispatcher.sendControlMessage c.isLocal c.id .CloseChannel
  { channels := removeFirst (fun r => r == c) s.channels,
    dispatcher := { d with queues := removeFirst (queueKeyIs c.isLocal c.id) d.queues } }

/-- The `CloseChannel` case of the connection's inbound `message` handler
(`src/index.ts` lines 348-355): find the channel whose creation flag is the
complement of the frame's origin flag, and `end()` it — which runs
`_final`. -/
def dispatchCloseChannel (s : ConnectionState) (msgLocal : Bool) (msgId : Nat) :
    ConnectionState :=
  match s.channels.find? (chanMatches msgLocal msgId) with
  | none => s
  | some c => channelFinal c s

/-- The `ChannelBufferFull` / `ChannelBufferEmpty` case of the inbound
handler (`src/index.ts` lines 356-359): forward to the dispatcher with the
complemented origin flag (`!message.local`). -/
def dispatchFlowControl (s : ConnectionState) (msgLocal : Bool) (msgId : Nat)
    (op : Opcode) : ConnectionState :=
  { s with dispatcher := s.dispatcher.handleControlMessage (!msgLocal) msgId op }

/-! ## Dispatcher events and traces

Everything the dispatcher ever does to a pending write's promise is made
explicit as `Completion` values, so that abandonment (claim about removed
queues) can be stated over whole traces. -/

/-- A promise settlement performed by the scheduler. -/
inductive Completion where
  | resolved (rid : Nat)
  | rejected (rid : Nat)
deriving DecidableEq, Repr

/-- The resolver settled by a completion. -/
def Completion.rid : Completion → Nat
  | .resolved r => r
  | .rejected r => r

/-- The operations that mutate dispatcher state in the source. -/
inductive Event where
  /-- `sendControlMessage` (from a channel). -/
  | sendControl (isLocal : Bool) (id : Nat) (op : Opcode)
  /-- One iteration of the `processControlQueue` drain loop. -/
  | drainControl
  /-- One iteration of the `processQueues` data loop (`index.ts` version). -/
  | dataStep (now : Nat) (ok : Bool)
  /-- `handleControlMessage` (from the connection). -/
  | handleControl (isLocal : Bool) (id : Nat) (op : Opcode)
  /-- `send` (a channel write; `rid` identifies the fresh resolver). -/
  | sendData (isLocal : Bool) (id : Nat) (rid : Nat) (data : List Nat)
  /-- `addChannel`: registers a fresh empty queue. -/
  | addChannel (isLocal : Bool) (id : Nat)
  /-- The `close` handler installed by `addChannel`: removes the queue. -/
  | channelClose (isLocal : Bool) (id : Nat)
deriving DecidableEq, Repr

/-- One dispatcher operation: the successor state and the promise
settlements it performs.  Only the data pass ever settles a write's
promise (`task.resolver.resolve()` / `task.resolver.reject(e)`). -/
def stepEvent (s : DispatcherState) : Event → DispatcherState × List Completion
  | .sendControl l i op => (s.sendControlMessage l i op, [])
  | .drainControl => ({ s with controlQueue := s.controlQueue.drop 1 }, [])
  | .dataStep now ok =>
      match processQueuesStep s false now ok with
      | .sent _ rid t => (t, [.resolved rid])
      | .failed rid t => (t, [.rejected rid])
      | _ => (s, [])
  | .handleControl l i op => (s.handleControlMessage l i op, [])
  | .sendData l i rid d =>
      match s.send l i rid d with
      | .ok t => (t, [])
      | .error _ => (s, [])
  | .addChannel l i => ({ s with queues := s.queues ++ [⟨l, i, [], false, 0⟩] }, [])
  | .channelClose l i => ({ s with queues := removeFirst (queueKeyIs l i) s.queues }, [])

/-- Runs a trace of events, collecting all promise settlements. -/
def run (s : DispatcherState) : List Event → DispatcherState × List Completion
  | [] => (s, [])
  | e :: es =>
      let p := stepEvent s e
      let r := run p.1 es
      (r.1, p.2 ++ r.2)

/-- Whether the resolver `rid` is still held by some write pending in a
queue present in the dispatcher's queue table. -/
def ridPending (s : DispatcherState) (rid : Nat) : Bool :=
  s.queues.any (fun q => q.queue.any (fun t => t.resolverId == rid))

/-- Whether an event installs a fresh write under resolver `rid`.  Resolver
objects are created fresh per `enqueue`, so a trace never reuses the
resolver of an abandoned write. -/
def eventEnqueuesRid : Event → Nat → Bool
  | .sendData _ _ r _, rid => r == rid
  | _, _ => false


/-! ## Codec lemmas -/

theorem decode_encode_uint32 (n : Nat) (h : n < 2 ^ 32) :
    decodeUInt32BE (n / 2 ^ 24 % 256) (n / 2 ^ 16 % 256) (n / 2 ^ 8 % 256) (n % 256) = n := by
  unfold decodeUInt32BE
  omega

/-- C9 (amended): decoding fails exactly when the buffer is shorter than the
6-byte header; the opcode byte is never validated, so any buffer of at
least 6 bytes decodes successfully even when its opcode byte names none of
the five recognized opcodes. -/
theorem parse_isSome_iff (buffer : List Nat) :
    (Message.parse buffer).isSome ↔ 6 ≤ buffer.length := by
  match buffer with
  | [] => simp [Message.parse]
  | [_] => simp [Message.parse]
  | [_, _] => simp [Message.parse]
  | [_, _, _] => simp [Message.parse]
  | [_, _, _, _] => simp [Message.parse]
  | [_, _, _, _, _] => simp [Message.parse]
  | _ :: _ :: _ :: _ :: _ :: _ :: rest => simp [Message.parse]


/-! ## Helper lemmas about `updateFirst`, `firstMin` and the stable sort -/

theorem updateFirst_append {α : Type} (p : α → Bool) (f : α → α) (l1 l2 : List α) (x : α)
    (h1 : ∀ r ∈ l1, p r = false) (h2 : p x = true) :
    updateFirst p f (l1 ++ x :: l2) = l1 ++ f x :: l2 := by
  induction l1 with
  | nil => simp [updateFirst, h2]
  | cons a as ih =>
      have ha : p a = false := h1 a (by simp)
      simp [updateFirst, ha, ih (fun r hr => h1 r (by simp [hr]))]

theorem updateFirst_all_false {α : Type} (p : α → Bool) (f : α → α) (l : List α)
    (h : ∀ r ∈ l, p r = false) : updateFirst p f l = l := by
  induction l with
  | nil => rfl
  | cons a as ih =>
      have ha : p a = false := h a (by simp)
      simp [updateFirst, ha, ih (fun r hr => h r (by simp [hr]))]

theorem firstMin_isSome (x : SendQueue) (xs : List SendQueue) :
    (firstMin (x :: xs)).isSome = true := by
  simp only [firstMin]
  cases firstMin xs with
  | none => rfl
  | some m =>
      dsimp only
      split <;> rfl

theorem firstMin_eq_none_iff (l : List SendQueue) : firstMin l = none ↔ l = [] := by
  cases l with
  | nil => simp [firstMin]
  | cons x xs =>
      have hs := firstMin_isSome x xs
      constructor
      · intro hc
        rw [hc] at hs
        simp at hs
      · intro hc
        cases hc

theorem sortByTime_head (l : List SendQueue) : (sortByTime l).head? = firstMin l := by
  induction l with
  | nil => rfl
  | cons x xs ih =>
      simp only [sortByTime, firstMin]
      cases h : firstMin xs with
      | none =>
          have hnil : sortByTime xs = [] := by
            cases hs : sortByTime xs with
            | nil => rfl
            | cons a as =>
                rw [hs, h] at ih
                simp at ih
          rw [hnil]
          rfl
      | some m =>
          have hh : (sortByTime xs).head? = some m := by rw [ih, h]
          cases hs : sortByTime xs with
          | nil => rw [hs] at hh; simp at hh
          | cons a as =>
              rw [hs] at hh
              simp at hh
              subst hh
              by_cases hc : x.lastSendTime ≤ a.lastSendTime <;> simp [insertByTime, hc]

theorem firstMin_spec (l : List SendQueue) (m : SendQueue) (h : firstMin l = some m) :
    ∃ l1 l2, l = l1 ++ m :: l2 ∧ (∀ r ∈ l1, m.lastSendTime < r.lastSendTime)
      ∧ (∀ r ∈ l2, m.lastSendTime ≤ r.lastSendTime) := by
  induction l generalizing m with
  | nil => cases h
  | cons x xs ih =>
      simp only [firstMin] at h
      cases hx : firstMin xs with
      | none =>
          simp only [hx] at h
          have hxs : xs = [] := (firstMin_eq_none_iff xs).mp hx
          simp at h
          subst h
          exact ⟨[], [], by simp [hxs], by simp, by simp [hxs]⟩
      | some m' =>
          simp only [hx] at h
          obtain ⟨l1, l2, heq, hlt, hle⟩ := ih m' hx
          by_cases hc : x.lastSendTime ≤ m'.lastSendTime
          · rw [if_pos hc] at h
            simp at h
            subst h
            refine ⟨[], xs, by simp, by simp, ?_⟩
            intro r hr
            rw [heq] at hr
            rcases List.mem_append.mp hr with h1 | h2
            · exact le_of_lt (lt_of_le_of_lt hc (hlt r h1))
            · rcases List.mem_cons.mp h2 with rfl | h3
              · exact hc
              · exact le_trans hc (hle r h3)
          · rw [if_neg hc] at h
            simp at h
            subst h
            refine ⟨x :: l1, l2, by simp [heq], ?_, hle⟩
            intro r hr
            rcases List.mem_cons.mp hr with rfl | h1
            · omega
            · exact hlt r h1

theorem selectCandidate_eq_firstMin (s : DispatcherState) :
    selectCandidate s = firstMin (s.queues.filter isPending) := by
  rw [selectCandidate, sortByTime_head]

theorem selectCandidate_mem (s : DispatcherState) (q : SendQueue)
    (h : selectCandidate s = some q) : q ∈ s.queues ∧ isPending q = true := by
  rw [selectCandidate_eq_firstMin] at h
  obtain ⟨l1, l2, heq, -, -⟩ := firstMin_spec _ _ h
  have : q ∈ s.queues.filter isPending := by rw [heq]; simp
  exact ⟨List.mem_of_mem_filter this, List.of_mem_filter this⟩

/-! ## Abandonment of writes left in a removed queue -/

theorem any_updateFirst_false {α : Type} (p : α → Bool) (f : α → α) (g : α → Bool)
    (l : List α) (h : l.any g = false) (hf : ∀ x ∈ l, p x = true → g (f x) = false) :
    (updateFirst p f l).any g = false := by
  induction l with
  | nil => rfl
  | cons a as ih =>
      rw [List.any_cons, Bool.or_eq_false_iff] at h
      unfold updateFirst
      by_cases hp : p a = true
      · rw [if_pos hp, List.any_cons, Bool.or_eq_false_iff]
        exact ⟨hf a (List.mem_cons_self a as) hp, h.2⟩
      · rw [if_neg hp, List.any_cons, Bool.or_eq_false_iff]
        exact ⟨h.1, ih h.2 (fun x hx hpx => hf x (List.mem_cons_of_mem a hx) hpx)⟩

theorem mem_removeFirst {α : Type} (p : α → Bool) (l : List α) (x : α)
    (h : x ∈ removeFirst p l) : x ∈ l := by
  induction l with
  | nil => cases h
  | cons a as ih =>
      simp only [removeFirst] at h
      by_cases hp : p a = true
      · rw [if_pos hp] at h
        exact List.mem_cons_of_mem a h
      · rw [if_neg hp] at h
        rcases List.mem_cons.mp h with rfl | hm
        · exact List.mem_cons_self x as
        · exact List.mem_cons_of_mem a (ih hm)

theorem any_removeFirst_false {α : Type} (p : α → Bool) (g : α → Bool) (l : List α)
    (h : l.any g = false) : (removeFirst p l).any g = false := by
  rw [List.any_eq_false] at h ⊢
  intro x hx
  exact h x (mem_removeFirst p l x hx)

theorem removeFirst_append {α : Type} (p : α → Bool) (l1 l2 : List α) (x : α)
    (h1 : ∀ r ∈ l1, p r = false) (h2 : p x = true) :
    removeFirst p (l1 ++ x :: l2) = l1 ++ l2 := by
  induction l1 with
  | nil => simp [removeFirst, h2]
  | cons a as ih =>
      have ha : p a = false := h1 a (by simp)
      simp [removeFirst, ha, ih (fun r hr => h1 r (by simp [hr]))]

/-- Every promise settlement performed in one dispatcher operation belongs
to a write that was pending, at that moment, in a queue present in the
queue table. -/
theorem stepEvent_completions_pending (s : DispatcherState) (e : Event) (c : Completion)
    (hc : c ∈ (stepEvent s e).2) : ridPending s c.rid = true := by
  cases e with
  | sendControl l i op => simp [stepEvent] at hc
  | drainControl => simp [stepEvent] at hc
  | handleControl l i op => simp [stepEvent] at hc
  | sendData l i rid d =>
      simp only [stepEvent] at hc
      cases hs : s.send l i rid d with
      | ok t => rw [hs] at hc; simp at hc
      | error msg => rw [hs] at hc; simp at hc
  | addChannel l i => simp [stepEvent] at hc
  | channelClose l i => simp [stepEvent] at hc
  | dataStep now ok =>
      simp only [stepEvent] at hc
      cases hsel : selectCandidate s with
      | none =>
          simp [processQueuesStep, hsel] at hc
      | some cand =>
          obtain ⟨hmem, hpend⟩ := selectCandidate_mem s cand hsel
          cases hq : cand.queue with
          | nil => simp [isPending, hq] at hpend
          | cons task rest =>
              have hin : cand.queue.any (fun t => t.resolverId == task.resolverId) = true := by
                rw [hq]
                simp
              have hridp : ridPending s task.resolverId = true := by
                rw [ridPending, List.any_eq_true]
                exact ⟨cand, hmem, hin⟩
              cases ok with
              | true =>
                  simp [processQueuesStep, hsel, hq] at hc
                  rw [hc]
                  exact hridp
              | false =>
                  simp [processQueuesStep, hsel, hq] at hc
                  rw [hc]
                  exact hridp

/-- No dispatcher operation can make an absent resolver pending again
(resolvers are fresh per enqueue, so a trace that never enqueues under
`rid` keeps `rid` absent). -/
theorem ridPending_stepEvent (s : DispatcherState) (e : Event) (rid : Nat)
    (h : ridPending s rid = false) (he : eventEnqueuesRid e rid = false) :
    ridPending (stepEvent s e).1 rid = false := by
  cases e with
  | sendControl l i op => simpa [stepEvent, DispatcherState.sendControlMessage, ridPending] using h
  | drainControl => simpa [stepEvent, ridPending] using h
  | handleControl l i op =>
      simp only [stepEvent, DispatcherState.handleControlMessage]
      unfold ridPending at h ⊢
      apply any_updateFirst_false _ _ _ _ h
      intro x hx hpx
      have hgx := (List.any_eq_false.mp h) x hx
      simpa using hgx
  | sendData l i rid2 d =>
      simp only [eventEnqueuesRid] at he
      cases hf : s.queues.find? (queueKeyIs l i) with
      | none =>
          simp only [stepEvent, DispatcherState.send, hf]
          exact h
      | some q =>
          simp only [stepEvent, DispatcherState.send, hf]
          unfold ridPending at h ⊢
          apply any_updateFirst_false _ _ _ _ h
          intro x hx hpx
          have hgx : (x.queue.any fun t => t.resolverId == rid) = false := by
            have := (List.any_eq_false.mp h) x hx
            simpa using this
          simp only [SendQueue.enqueue, List.any_append, Bool.or_eq_false_iff]
          exact ⟨hgx, by simp [he]⟩
  | addChannel l i =>
      unfold ridPending at h
      simp [stepEvent, ridPending, List.any_append, h]
  | channelClose l i =>
      unfold ridPending at h
      simp only [stepEvent]
      unfold ridPending
      exact any_removeFirst_false _ _ _ h
  | dataStep now ok =>
      simp only [stepEvent]
      cases hsel : selectCandidate s with
      | none =>
          simp only [processQueuesStep, hsel]
          simpa using h
      | some cand =>
          obtain ⟨hmem, hpend⟩ := selectCandidate_mem s cand hsel
          cases hq : cand.queue with
          | nil => simp [isPending, hq] at hpend
          | cons task rest =>
              have hcand : (cand.queue.any fun t => t.resolverId == rid) = false := by
                have := (List.any_eq_false.mp h) cand hmem
                simpa using this
              have hrest : (rest.any fun t => t.resolverId == rid) = false := by
                rw [hq, List.any_cons, Bool.or_eq_false_iff] at hcand
                exact hcand.2
              cases ok with
              | true =>
                  simp only [processQueuesStep, hsel, hq]
                  simp only [if_true]
                  unfold ridPending at h ⊢
                  apply any_updateFirst_false _ _ _ _ h
                  intro x hx hpx
                  exact hrest
              | false =>
                  simp only [processQueuesStep, hsel, hq]
                  unfold ridPending at h ⊢
                  apply any_updateFirst_false _ _ _ _ h
                  intro x hx hpx
                  exact hrest

/-- Over any trace of dispatcher operations, a resolver that is not held by
any queue in the table (and is never reused) is never settled: no
completion for it ever fires. -/
theorem run_no_completion_for_missing (s : DispatcherState) (rid : Nat) (trace : List Event)
    (h : ridPending s rid = false) (hfresh : ∀ e ∈ trace, eventEnqueuesRid e rid = false) :
    ∀ c ∈ (run s trace).2, c.rid ≠ rid := by
  induction trace generalizing s with
  | nil =>
      intro c hc
      simp [run] at hc
  | cons e es ih =>
      intro c hc
      simp only [run] at hc
      rw [List.mem_append] at hc
      rcases hc with hc1 | hc2
      · intro hrid
        have hp := stepEvent_completions_pending s e c hc1
        rw [hrid, h] at hp
        cases hp
      · exact ih (stepEvent s e).1 (ridPending_stepEvent s e rid h (hfresh e (by simp)))
          (fun e2 he2 => hfresh e2 (by simp [he2])) c hc2

/-! ## Inversion of the data pass and of `find?` -/

theorem find?_decomp {α : Type} (p : α → Bool) (l : List α) (x : α)
    (h : l.find? p = some x) :
    p x = true ∧ ∃ l1 l2, l = l1 ++ x :: l2 ∧ ∀ r ∈ l1, p r = false := by
  induction l with
  | nil => cases h
  | cons a as ih =>
      by_cases hp : p a = true
      · rw [List.find?_cons_of_pos _ hp] at h
        injection h with h
        subst h
        exact ⟨hp, [], as, rfl, by simp⟩
      · have hpa : p a = false := by
          cases hv : p a
          · rfl
          · exact absurd hv hp
        rw [List.find?_cons_of_neg _ (by simp [hpa])] at h
        obtain ⟨hx, l1, l2, heq, hl1⟩ := ih h
        refine ⟨hx, a :: l1, l2, by simp [heq], ?_⟩
        intro r hr
        rcases List.mem_cons.mp hr with rfl | hm
        · exact hpa
        · exact hl1 r hm

theorem processQueuesStep_sent_inv (s : DispatcherState) (now : Nat) (ok : Bool)
    (frame : Message) (rid : Nat) (t : DispatcherState)
    (h : processQueuesStep s false now ok = .sent frame rid t) :
    ∃ cand task rest, selectCandidate s = some cand ∧ cand.queue = task :: rest ∧
      rid = task.resolverId ∧ ok = true ∧
      frame = ⟨(if cand.lastSendTime == 0 then Opcode.CreateChannel else Opcode.Data).toNat,
        cand.isLocal, cand.id, some task.data⟩ ∧
      t.queues = updateFirst (· == cand)
        (fun _ => { cand with queue := rest, lastSendTime := now }) s.queues ∧
      t.controlQueue = s.controlQueue := by
  cases hsel : selectCandidate s with
  | none => simp [processQueuesStep, hsel] at h
  | some cand =>
      cases hq : cand.queue with
      | nil => simp [processQueuesStep, hsel, hq] at h
      | cons task rest =>
          cases ok with
          | false => simp [processQueuesStep, hsel, hq] at h
          | true =>
              simp only [processQueuesStep, hsel, hq] at h
              simp at h
              obtain ⟨hframe, hrid, ht⟩ := h
              refine ⟨cand, task, rest, rfl, hq, hrid.symm, rfl, ?_, by rw [← ht], by rw [← ht]⟩
              rw [← hframe]
              simp

/-! ## Claim theorems: frame codec -/

/-- C9 counterexample: the 6-byte buffer `[255, 0, 0, 0, 0, 7]` carries the
unrecognized opcode byte 255, yet `parse` decodes it successfully — refuting
that decoding fails on unrecognized opcodes. -/
theorem parse_accepts_unknown_opcode_cex :
    Message.parse [255, 0, 0, 0, 0, 7] = some ⟨255, true, 7, some []⟩ ∧
    Opcode.ofNat? 255 = none := by
  constructor
  · rfl
  · rfl

/-- C8: for every frame whose opcode fits in one byte and whose id is below
`2 ^ 32`, encoding with `toBuffer` and decoding with `parse` reproduces the
opcode, the origin flag, the id and the payload bytes. -/
theorem message_roundtrip (op : Nat) (flag : Bool) (i : Nat) (payload : List Nat)
    (hop : op < 256) (hi : i < 2 ^ 32) :
    ∃ buf, (Message.mk op flag i (some payload)).toBuffer = some buf ∧
      Message.parse buf = some (Message.mk op flag i (some payload)) := by
  refine ⟨[op, if flag then 0 else 1] ++ encodeUInt32BE i ++ payload, ?_, ?_⟩
  · have hc : op < 256 ∧ i < 2 ^ 32 := ⟨hop, hi⟩
    simp only [Message.toBuffer, if_pos hc]
    simp
  · have hdec := decode_encode_uint32 i hi
    cases flag with
    | true =>
        simp only [encodeUInt32BE, if_true, List.cons_append, List.nil_append, Message.parse]
        rw [hdec]
        simp
    | false =>
        simp only [encodeUInt32BE, if_false, List.cons_append, List.nil_append, Message.parse]
        rw [hdec]
        simp

/-- C8 witness: the concrete frame of the claim — opcode `Data`, origin
flag 0 (created-by-sender, `local_flag = true`), id 42, payload
`[1, 2, 3]`. -/
theorem message_roundtrip_witness :
    (2 : Nat) < 256 ∧ (42 : Nat) < 2 ^ 32 ∧
    ∃ buf, (Message.mk Opcode.Data.toNat true 42 (some [1, 2, 3])).toBuffer = some buf ∧
      Message.parse buf = some (Message.mk Opcode.Data.toNat true 42 (some [1, 2, 3])) :=
  ⟨by decide, by decide,
    message_roundtrip Opcode.Data.toNat true 42 [1, 2, 3] (by decide) (by decide)⟩

/-! ## Claim theorems: scheduler entry points -/

/-- C6: `send` on a `(local, id)` pair with no matching queue fails
synchronously with `cannot write after end`, enqueuing nothing; with a
matching queue it appends the write to that queue's FIFO (touching nothing
else) and the returned promise is pending. -/
theorem send_write_after_end (s : DispatcherState) (isLocal : Bool) (i rid : Nat)
    (data : List Nat) :
    (s.queues.find? (queueKeyIs isLocal i) = none →
      s.send isLocal i rid data = .error "cannot write after end")
    ∧ (∀ q, s.queues.find? (queueKeyIs isLocal i) = some q →
      ∃ t, s.send isLocal i rid data = .ok t
        ∧ t.queues = updateFirst (queueKeyIs isLocal i) (fun r => r.enqueue rid data) s.queues
        ∧ t.controlQueue = s.controlQueue
        ∧ ridPending t rid = true) := by
  constructor
  · intro h
    simp [DispatcherState.send, h]
  · intro q hq
    refine ⟨{ s with queues := updateFirst (queueKeyIs isLocal i) (fun r => r.enqueue rid data) s.queues },
      by simp [DispatcherState.send, hq], rfl, rfl, ?_⟩
    obtain ⟨hpq, l1, l2, heq, hl1⟩ := find?_decomp _ _ _ hq
    show (updateFirst (queueKeyIs isLocal i) (fun r => r.enqueue rid data) s.queues).any
      (fun q2 => q2.queue.any fun t2 => t2.resolverId == rid) = true
    rw [heq, updateFirst_append _ _ _ _ _ hl1 hpq, List.any_eq_true]
    exact ⟨q.enqueue rid data, by simp, by simp [SendQueue.enqueue]⟩

/-- C6 witness: on a table containing the queue `(true, 0)`, a `send` for
`(true, 0)` enqueues and stays pending, while on an empty table `send`
fails with `cannot write after end`. -/
theorem send_write_after_end_witness :
    (DispatcherState.mk [] []).send true 0 3 [7] = .error "cannot write after end"
    ∧ (∃ t, (DispatcherState.mk [⟨true, 0, [], false, 0⟩] []).send true 0 3 [7] = .ok t
        ∧ t.queues = updateFirst (queueKeyIs true 0) (fun r => r.enqueue 3 [7])
            (DispatcherState.mk [⟨true, 0, [], false, 0⟩] []).queues
        ∧ t.controlQueue = (DispatcherState.mk [⟨true, 0, [], false, 0⟩] []).controlQueue
        ∧ ridPending t 3 = true) :=
  ⟨(send_write_after_end ⟨[], []⟩ true 0 3 [7]).1 rfl,
    (send_write_after_end ⟨[⟨true, 0, [], false, 0⟩], []⟩ true 0 3 [7]).2
      ⟨true, 0, [], false, 0⟩ (by decide)⟩

/-- C4: in a data-pass iteration the candidate set is exactly the non-empty,
not-remote-full queues; an empty candidate set makes the pass idle; the
selected queue is the one with the smallest `lastSendTime`, ties broken by
position (insertion order); and exactly one pending write — the head of
the selected queue's FIFO — is dequeued in the iteration. -/
theorem data_pass_scheduling :
    (∀ (s : DispatcherState) (q : SendQueue),
        q ∈ s.queues.filter isPending ↔ q ∈ s.queues ∧ q.remoteFull = false ∧ q.queue ≠ [])
    ∧ (∀ (s : DispatcherState) (now : Nat) (ok : Bool),
        s.queues.filter isPending = [] → processQueuesStep s false now ok = .idle)
    ∧ (∀ (s : DispatcherState) (q : SendQueue), selectCandidate s = some q →
        ∃ l1 l2, s.queues.filter isPending = l1 ++ q :: l2
          ∧ (∀ r ∈ l1, q.lastSendTime < r.lastSendTime)
          ∧ (∀ r ∈ l2, q.lastSendTime ≤ r.lastSendTime))
    ∧ (∀ (s : DispatcherState) (now : Nat) (q : SendQueue) (task : SendTask)
        (rest : List SendTask) (m1 m2 : List SendQueue),
        selectCandidate s = some q → q.queue = task :: rest →
        s.queues = m1 ++ q :: m2 → (∀ r ∈ m1, (r == q) = false) →
        ∃ frame t, processQueuesStep s false now true = .sent frame task.resolverId t
          ∧ t.queues = m1 ++ { q with queue := rest, lastSendTime := now } :: m2) := by
  refine ⟨?_, ?_, ?_, ?_⟩
  · intro s q
    simp [List.mem_filter, isPending, List.length_eq_zero]
  · intro s now ok h
    have hsel : selectCandidate s = none := by
      rw [selectCandidate, h]
      rfl
    simp [processQueuesStep, hsel]
  · intro s q hsel
    rw [selectCandidate_eq_firstMin] at hsel
    exact firstMin_spec _ _ hsel
  · intro s now q task rest m1 m2 hsel hq hqs hm1
    refine ⟨⟨(if q.lastSendTime == 0 then Opcode.CreateChannel else Opcode.Data).toNat,
        q.isLocal, q.id, some task.data⟩,
      { s with queues := updateFirst (· == q) (fun _ => { q with queue := rest, lastSendTime := now }) s.queues },
      ?_, ?_⟩
    · simp [processQueuesStep, hsel, hq]
    · show updateFirst (· == q) (fun _ => { q with queue := rest, lastSendTime := now })
        s.queues = m1 ++ { q with queue := rest, lastSendTime := now } :: m2
      rw [hqs, updateFirst_append _ _ _ _ _ hm1 (by simp)]

/-- C4 witness: with two pending queues of send times 10 and 4 the pass
selects the latter and dequeues exactly its head write; the empty table
goes idle. -/
theorem data_pass_scheduling_witness :
    processQueuesStep ⟨[], []⟩ false 0 true = .idle
    ∧ (∃ l1 l2,
        (DispatcherState.mk [⟨true, 0, [⟨1, [5]⟩], false, 10⟩, ⟨true, 1, [⟨2, [6]⟩], false, 4⟩]
          []).queues.filter isPending = l1 ++ (⟨true, 1, [⟨2, [6]⟩], false, 4⟩ : SendQueue) :: l2
        ∧ (∀ r ∈ l1, (4 : Nat) < r.lastSendTime)
        ∧ (∀ r ∈ l2, (4 : Nat) ≤ r.lastSendTime))
    ∧ (∃ frame t,
        processQueuesStep
          ⟨[⟨true, 0, [⟨1, [5]⟩], false, 10⟩, ⟨true, 1, [⟨2, [6]⟩], false, 4⟩], []⟩
          false 9 true = .sent frame 2 t
        ∧ t.queues = [⟨true, 0, [⟨1, [5]⟩], false, 10⟩] ++
            (⟨true, 1, [], false, 9⟩ : SendQueue) :: []) :=
  ⟨(data_pass_scheduling.2.1 ⟨[], []⟩ 0 true) rfl,
    data_pass_scheduling.2.2.1
      ⟨[⟨true, 0, [⟨1, [5]⟩], false, 10⟩, ⟨true, 1, [⟨2, [6]⟩], false, 4⟩], []⟩
      ⟨true, 1, [⟨2, [6]⟩], false, 4⟩ (by decide),
    data_pass_scheduling.2.2.2
      ⟨[⟨true, 0, [⟨1, [5]⟩], false, 10⟩, ⟨true, 1, [⟨2, [6]⟩], false, 4⟩], []⟩
      9 ⟨true, 1, [⟨2, [6]⟩], false, 4⟩ ⟨2, [6]⟩ []
      [⟨true, 0, [⟨1, [5]⟩], false, 10⟩] [] (by decide) rfl rfl (by decide)⟩

/-! ## Claim theorems: flow control and loop interaction -/

/-- C3: an inbound `ChannelBufferFull` with origin flag `o` and id `n` sets
`remoteFull` on exactly the queue keyed by the complement of `o` and id
`n`, leaving every other queue unchanged; `ChannelBufferEmpty` for the same
key clears it; and while a queue's `remoteFull` is set the data pass never
selects it and never emits a frame bearing that channel's identity. -/
theorem flow_control_matching_queue :
    (∀ (s : ConnectionState) (o : Bool) (n : Nat) (l1 l2 : List SendQueue) (q : SendQueue),
        s.dispatcher.queues = l1 ++ q :: l2 →
        (∀ r ∈ l1, queueKeyIs (!o) n r = false) →
        queueKeyIs (!o) n q = true →
        (dispatchFlowControl s o n .ChannelBufferFull).dispatcher.queues
            = l1 ++ { q with remoteFull := true } :: l2
        ∧ (dispatchFlowControl s o n .ChannelBufferEmpty).dispatcher.queues
            = l1 ++ { q with remoteFull := false } :: l2)
    ∧ (∀ (d : DispatcherState) (q : SendQueue) (now : Nat) (ok : Bool),
        q ∈ d.queues → q.remoteFull = true →
        selectCandidate d ≠ some q
        ∧ (∀ frame rid t, processQueuesStep d false now ok = .sent frame rid t →
            (∀ r ∈ d.queues, queueKeyIs q.isLocal q.id r = true → r = q) →
            ¬(frame.local_flag = q.isLocal ∧ frame.id = q.id))) := by
  constructor
  · intro s o n l1 l2 q hqs hl1 hkey
    constructor
    · show updateFirst (queueKeyIs (!o) n) _ s.dispatcher.queues = _
      rw [hqs, updateFirst_append _ _ _ _ _ hl1 hkey]
      simp
    · show updateFirst (queueKeyIs (!o) n) _ s.dispatcher.queues = _
      rw [hqs, updateFirst_append _ _ _ _ _ hl1 hkey]
      simp
  · intro d q now ok hmem hremote
    constructor
    · intro heq
      obtain ⟨-, hpend⟩ := selectCandidate_mem d q heq
      simp [isPending, hremote] at hpend
    · intro frame rid t hstep huniq hkey
      obtain ⟨cand, task, rest, hsel, -, -, -, hframe, -, -⟩ :=
        processQueuesStep_sent_inv d now ok frame rid t hstep
      obtain ⟨hcmem, hcpend⟩ := selectCandidate_mem d cand hsel
      rw [hframe] at hkey
      dsimp only at hkey
      have hck : queueKeyIs q.isLocal q.id cand = true := by
        simp [queueKeyIs, hkey.1, hkey.2]
      have hcq := huniq cand hcmem hck
      rw [hcq] at hcpend
      simp [isPending, hremote] at hcpend

/-- C3 witness: on a table holding the single queue `(false, 3)`, an
inbound `ChannelBufferFull` with origin flag `true` flips exactly that
queue's `remoteFull` on, `ChannelBufferEmpty` flips it off, and while it is
on the pass neither selects that queue nor emits a frame for it. -/
theorem flow_control_matching_queue_witness :
    ((dispatchFlowControl ⟨[], ⟨[⟨false, 3, [⟨0, [1]⟩], false, 0⟩], []⟩⟩ true 3
        .ChannelBufferFull).dispatcher.queues
      = [] ++ (⟨false, 3, [⟨0, [1]⟩], true, 0⟩ : SendQueue) :: []
    ∧ (dispatchFlowControl ⟨[], ⟨[⟨false, 3, [⟨0, [1]⟩], false, 0⟩], []⟩⟩ true 3
        .ChannelBufferEmpty).dispatcher.queues
      = [] ++ (⟨false, 3, [⟨0, [1]⟩], false, 0⟩ : SendQueue) :: [])
    ∧ (selectCandidate ⟨[⟨false, 3, [⟨0, [1]⟩], true, 0⟩], []⟩
        ≠ some ⟨false, 3, [⟨0, [1]⟩], true, 0⟩) :=
  ⟨(flow_control_matching_queue.1 ⟨[], ⟨[⟨false, 3, [⟨0, [1]⟩], false, 0⟩], []⟩⟩ true 3
      [] [] ⟨false, 3, [⟨0, [1]⟩], false, 0⟩ rfl (by simp) (by decide)),
    (flow_control_matching_queue.2 ⟨[⟨false, 3, [⟨0, [1]⟩], true, 0⟩], []⟩
      ⟨false, 3, [⟨0, [1]⟩], true, 0⟩ 0 true (by decide) rfl).1⟩

/-- C5 counterexample: an iteration that began with the control loop
inactive (`pcqAtTop = false`) but saw it become active during the
backpressure wait (`pcqDuringWait = true`) still sends the pending data
frame instead of yielding back to control draining. -/
theorem data_pass_race_cex :
    processQueuesStepRace ⟨[⟨true, 0, [⟨0, [1]⟩], false, 4⟩], []⟩ false true 9 true
      = .sent ⟨Opcode.Data.toNat, true, 0, some [1]⟩ 0 ⟨[⟨true, 0, [], false, 9⟩], []⟩ := by
  decide

/-- C5 (amended): the data loop yields to control draining only at the top
of an iteration — if `_processingControlQueue` is set when the iteration
begins nothing is dequeued or sent; the flag's value during the
backpressure wait has no influence on the iteration, so a data frame whose
wait was already entered is still sent. -/
theorem data_pass_yields_only_at_loop_top (s : DispatcherState) (dw dw2 : Bool)
    (now : Nat) (ok : Bool) :
    processQueuesStepRace s true dw now ok = .yieldToControl
    ∧ processQueuesStepRace s false dw now ok = processQueuesStepRace s false dw2 now ok :=
  ⟨rfl, rfl⟩

/-- C10 counterexample: on the very first send of a remotely-created
channel (creation flag `false`, `lastSendTime = 0`) the `index.ts`
scheduler emits a `CreateChannel` frame while the
`multiplex-websocket-dispatcher.ts` scheduler emits a `Data` frame — the
two dispatchers are not behaviorally equivalent. -/
theorem dispatcher_versions_differ_cex :
    processQueuesStep ⟨[⟨false, 3, [⟨1, [4, 5]⟩], false, 0⟩], []⟩ false 6 true
      = .sent ⟨Opcode.CreateChannel.toNat, false, 3, some [4, 5]⟩ 1 ⟨[⟨false, 3, [], false, 6⟩], []⟩
    ∧ processQueuesStepM ⟨[⟨false, 3, [⟨1, [4, 5]⟩], false, 0⟩], []⟩ false 6 true
      = .sent ⟨Opcode.Data.toNat, false, 3, some [4, 5]⟩ 1 ⟨[⟨false, 3, [], false, 6⟩], []⟩
    ∧ Opcode.CreateChannel.toNat ≠ Opcode.Data.toNat := by
  refine ⟨by decide, by decide, by decide⟩

/-- C10 (amended): the two `processQueues` implementations share the same
queue selection and agree on every emitted frame except the first send of a
remotely-created channel: whenever the selected queue is locally created or
has already sent (`lastSendTime ≠ 0`), the iterations are equal. -/
theorem dispatcher_versions_agree_unless_remote_first (s : DispatcherState) (pcq : Bool)
    (now : Nat) (ok : Bool) :
    (selectCandidate s = none → processQueuesStep s pcq now ok = processQueuesStepM s pcq now ok)
    ∧ (∀ q, selectCandidate s = some q → q.isLocal = true ∨ q.lastSendTime ≠ 0 →
        processQueuesStep s pcq now ok = processQueuesStepM s pcq now ok) := by
  cases pcq with
  | true => exact ⟨fun _ => rfl, fun q _ _ => rfl⟩
  | false =>
      constructor
      · intro h
        simp [processQueuesStep, processQueuesStepM, h]
      · intro q hsel hcase
        cases hq : q.queue with
        | nil => simp [processQueuesStep, processQueuesStepM, hsel, hq]
        | cons task rest =>
            cases ok with
            | false => simp [processQueuesStep, processQueuesStepM, hsel, hq]
            | true =>
                rcases hcase with hl | ht
                · simp [processQueuesStep, processQueuesStepM, hsel, hq, hl]
                · have h0 : ¬ q.lastSendTime = 0 := ht
                  simp [processQueuesStep, processQueuesStepM, hsel, hq, h0]

/-- C10 witness: on a locally-created queue the two schedulers produce the
same iteration. -/
theorem dispatcher_versions_agree_unless_remote_first_witness :
    selectCandidate ⟨[⟨true, 0, [⟨0, [1]⟩], false, 0⟩], []⟩
        = some ⟨true, 0, [⟨0, [1]⟩], false, 0⟩
    ∧ processQueuesStep ⟨[⟨true, 0, [⟨0, [1]⟩], false, 0⟩], []⟩ false 5 true
        = processQueuesStepM ⟨[⟨true, 0, [⟨0, [1]⟩], false, 0⟩], []⟩ false 5 true :=
  ⟨by decide,
    (dispatcher_versions_agree_unless_remote_first ⟨[⟨true, 0, [⟨0, [1]⟩], false, 0⟩], []⟩
      false 5 true).2 ⟨true, 0, [⟨0, [1]⟩], false, 0⟩ (by decide) (Or.inl rfl)⟩

/-! ## Claim theorems: channel lifecycle -/

/-- C1 counterexample: dispatching an inbound `CloseChannel` for the live
channel `(true, 0)` (frame origin flag `false`, the complement) ends the
channel via `end()` → `_final`, which enqueues a `CloseChannel` control
frame — refuting that no `CloseChannel` is ever enqueued as a result of an
inbound close. -/
theorem inbound_close_enqueues_echo_cex :
    chanMatches false 0 ⟨true, 0⟩ = true
    ∧ (dispatchCloseChannel ⟨[⟨true, 0⟩], ⟨[⟨true, 0, [], false, 0⟩], []⟩⟩ false 0).dispatcher.controlQueue
        = [mkControlMessage true 0 Opcode.CloseChannel]
    ∧ (mkControlMessage true 0 Opcode.CloseChannel).opcode = Opcode.CloseChannel.toNat := by
  refine ⟨rfl, rfl, rfl⟩

/-- C1 (amended): dispatching an inbound `CloseChannel` that matches a live
channel ends that channel locally — it is removed from the channel table
and its send queue from the queue table — and enqueues exactly one
`CloseChannel` echo on the control queue (through `_final`); the echo does
not loop forever because the original closer's channel is already gone, so
the matching lookup fails there and the dispatch is a no-op. -/
theorem inbound_close_ends_and_echoes (s : ConnectionState) (o : Bool) (n : Nat)
    (c : ChannelState) (h : s.channels.find? (chanMatches o n) = some c) :
    (dispatchCloseChannel s o n).dispatcher.controlQueue
        = s.dispatcher.controlQueue ++ [mkControlMessage c.isLocal c.id Opcode.CloseChannel]
    ∧ (dispatchCloseChannel s o n).channels = removeFirst (fun r => r == c) s.channels
    ∧ (dispatchCloseChannel s o n).dispatcher.queues
        = removeFirst (queueKeyIs c.isLocal c.id) s.dispatcher.queues
    ∧ (∀ (s2 : ConnectionState), s2.channels.find? (chanMatches (!o) n) = none →
        dispatchCloseChannel s2 (!o) n = s2) := by
  refine ⟨?_, ?_, ?_, ?_⟩
  · unfold dispatchCloseChannel
    rw [h]
    rfl
  · unfold dispatchCloseChannel
    rw [h]
    rfl
  · unfold dispatchCloseChannel
    rw [h]
    rfl
  · intro s2 h2
    unfold dispatchCloseChannel
    rw [h2]

/-- C1 witness: the amended behaviour evaluated on a connection holding the
single live channel `(true, 0)`. -/
theorem inbound_close_ends_and_echoes_witness :
    (ConnectionState.mk [⟨true, 0⟩] ⟨[⟨true, 0, [], false, 0⟩], []⟩).channels.find?
        (chanMatches false 0) = some ⟨true, 0⟩
    ∧ ((dispatchCloseChannel ⟨[⟨true, 0⟩], ⟨[⟨true, 0, [], false, 0⟩], []⟩⟩ false 0).dispatcher.controlQueue
        = (ConnectionState.mk [⟨true, 0⟩] ⟨[⟨true, 0, [], false, 0⟩], []⟩).dispatcher.controlQueue
          ++ [mkControlMessage (true : Bool) 0 Opcode.CloseChannel]
      ∧ (dispatchCloseChannel ⟨[⟨true, 0⟩], ⟨[⟨true, 0, [], false, 0⟩], []⟩⟩ false 0).channels
        = removeFirst (fun r => r == (⟨true, 0⟩ : ChannelState))
            (ConnectionState.mk [⟨true, 0⟩] ⟨[⟨true, 0, [], false, 0⟩], []⟩).channels
      ∧ (dispatchCloseChannel ⟨[⟨true, 0⟩], ⟨[⟨true, 0, [], false, 0⟩], []⟩⟩ false 0).dispatcher.queues
        = removeFirst (queueKeyIs true 0)
            (ConnectionState.mk [⟨true, 0⟩] ⟨[⟨true, 0, [], false, 0⟩], []⟩).dispatcher.queues
      ∧ (∀ (s2 : ConnectionState), s2.channels.find? (chanMatches (!false) 0) = none →
          dispatchCloseChannel s2 (!false) 0 = s2)) :=
  ⟨rfl, inbound_close_ends_and_echoes ⟨[⟨true, 0⟩], ⟨[⟨true, 0, [], false, 0⟩], []⟩⟩
    false 0 ⟨true, 0⟩ rfl⟩

/-- C2 counterexample: in the `multiplex-websocket-dispatcher.ts` pass, a
selected queue with `lastSendTime = 0` but creation flag `false` is sent
with opcode `Data`, not `CreateChannel` — refuting the claimed
"CreateChannel iff `lastSendTime = 0`". -/
theorem first_send_opcode_cex :
    (⟨false, 7, [⟨0, [9]⟩], false, 0⟩ : SendQueue).lastSendTime = 0
    ∧ selectCandidate ⟨[⟨false, 7, [⟨0, [9]⟩], false, 0⟩], []⟩
        = some ⟨false, 7, [⟨0, [9]⟩], false, 0⟩
    ∧ processQueuesStepM ⟨[⟨false, 7, [⟨0, [9]⟩], false, 0⟩], []⟩ false 5 true
        = .sent ⟨Opcode.Data.toNat, false, 7, some [9]⟩ 0 ⟨[⟨false, 7, [], false, 5⟩], []⟩
    ∧ Opcode.Data.toNat ≠ Opcode.CreateChannel.toNat := by
  refine ⟨rfl, by decide, by decide, by decide⟩

/-- C2 (amended): for the selected queue's dequeued write, the `index.ts`
pass sends opcode `CreateChannel` iff `lastSendTime = 0` while the
`multiplex-websocket-dispatcher.ts` pass sends `CreateChannel` iff the
queue is locally created and `lastSendTime = 0` (`Data` otherwise); on
success both update the queue's `lastSendTime` to the current time and the
write's completion promise is resolved. -/
theorem first_send_opcode (s : DispatcherState) (now : Nat) (cand : SendQueue)
    (task : SendTask) (rest : List SendTask)
    (hsel : selectCandidate s = some cand) (hq : cand.queue = task :: rest) :
    ∃ t tM,
      processQueuesStep s false now true
        = .sent ⟨(if cand.lastSendTime == 0 then Opcode.CreateChannel else Opcode.Data).toNat,
            cand.isLocal, cand.id, some task.data⟩ task.resolverId t
      ∧ processQueuesStepM s false now true
        = .sent ⟨(if cand.isLocal && cand.lastSendTime == 0 then Opcode.CreateChannel
            else Opcode.Data).toNat, cand.isLocal, cand.id, some task.data⟩ task.resolverId tM
      ∧ ((if cand.lastSendTime == 0 then Opcode.CreateChannel else Opcode.Data)
            = Opcode.CreateChannel ↔ cand.lastSendTime = 0)
      ∧ ((if cand.isLocal && cand.lastSendTime == 0 then Opcode.CreateChannel else Opcode.Data)
            = Opcode.CreateChannel ↔ (cand.isLocal = true ∧ cand.lastSendTime = 0))
      ∧ t.queues = updateFirst (· == cand) (fun _ => { cand with queue := rest, lastSendTime := now }) s.queues
      ∧ tM = t
      ∧ (stepEvent s (.dataStep now true)).2 = [.resolved task.resolverId] := by
  have hstep : processQueuesStep s false now true
      = .sent ⟨(if cand.lastSendTime == 0 then Opcode.CreateChannel else Opcode.Data).toNat,
          cand.isLocal, cand.id, some task.data⟩ task.resolverId
        { s with queues := updateFirst (· == cand) (fun _ => { cand with queue := rest, lastSendTime := now }) s.queues } := by
    simp [processQueuesStep, hsel, hq]
  have hstepM : processQueuesStepM s false now true
      = .sent ⟨(if cand.isLocal && cand.lastSendTime == 0 then Opcode.CreateChannel
          else Opcode.Data).toNat, cand.isLocal, cand.id, some task.data⟩ task.resolverId
        { s with queues := updateFirst (· == cand) (fun _ => { cand with queue := rest, lastSendTime := now }) s.queues } := by
    simp [processQueuesStepM, hsel, hq]
  refine ⟨_, _, hstep, hstepM, ?_, ?_, rfl, rfl, ?_⟩
  · by_cases h0 : cand.lastSendTime = 0 <;> simp [h0]
  · by_cases h0 : cand.lastSendTime = 0 <;> cases hl : cand.isLocal <;> simp [h0, hl]
  · simp [stepEvent, hstep]

/-- C2 witness: the amended behaviour on a locally-created queue sending
its first frame. -/
theorem first_send_opcode_witness :
    selectCandidate ⟨[⟨true, 2, [⟨4, [8]⟩], false, 0⟩], []⟩
        = some ⟨true, 2, [⟨4, [8]⟩], false, 0⟩
    ∧ (⟨true, 2, [⟨4, [8]⟩], false, 0⟩ : SendQueue).queue = ⟨4, [8]⟩ :: []
    ∧ (∃ t tM,
        processQueuesStep ⟨[⟨true, 2, [⟨4, [8]⟩], false, 0⟩], []⟩ false 5 true
          = .sent ⟨(if (⟨true, 2, [⟨4, [8]⟩], false, 0⟩ : SendQueue).lastSendTime == 0 then
              Opcode.CreateChannel else Opcode.Data).toNat, true, 2, some [8]⟩ 4 t
        ∧ processQueuesStepM ⟨[⟨true, 2, [⟨4, [8]⟩], false, 0⟩], []⟩ false 5 true
          = .sent ⟨(if (⟨true, 2, [⟨4, [8]⟩], false, 0⟩ : SendQueue).isLocal &&
              (⟨true, 2, [⟨4, [8]⟩], false, 0⟩ : SendQueue).lastSendTime == 0 then
              Opcode.CreateChannel else Opcode.Data).toNat, true, 2, some [8]⟩ 4 tM
        ∧ ((if (⟨true, 2, [⟨4, [8]⟩], false, 0⟩ : SendQueue).lastSendTime == 0 then
              Opcode.CreateChannel else Opcode.Data) = Opcode.CreateChannel
            ↔ (⟨true, 2, [⟨4, [8]⟩], false, 0⟩ : SendQueue).lastSendTime = 0)
        ∧ ((if (⟨true, 2, [⟨4, [8]⟩], false, 0⟩ : SendQueue).isLocal &&
              (⟨true, 2, [⟨4, [8]⟩], false, 0⟩ : SendQueue).lastSendTime == 0 then
              Opcode.CreateChannel else Opcode.Data) = Opcode.CreateChannel
            ↔ ((⟨true, 2, [⟨4, [8]⟩], false, 0⟩ : SendQueue).isLocal = true
              ∧ (⟨true, 2, [⟨4, [8]⟩], false, 0⟩ : SendQueue).lastSendTime = 0))
        ∧ t.queues = updateFirst (· == (⟨true, 2, [⟨4, [8]⟩], false, 0⟩ : SendQueue))
            (fun _ => { (⟨true, 2, [⟨4, [8]⟩], false, 0⟩ : SendQueue) with queue := [], lastSendTime := 5 })
            (DispatcherState.mk [⟨true, 2, [⟨4, [8]⟩], false, 0⟩] []).queues
        ∧ tM = t
        ∧ (stepEvent ⟨[⟨true, 2, [⟨4, [8]⟩], false, 0⟩], []⟩ (.dataStep 5 true)).2
            = [.resolved 4]) :=
  ⟨by decide, rfl,
    first_send_opcode ⟨[⟨true, 2, [⟨4, [8]⟩], false, 0⟩], []⟩ 5
      ⟨true, 2, [⟨4, [8]⟩], false, 0⟩ ⟨4, [8]⟩ [] (by decide) rfl⟩

/-- C7: when a channel's close removes its send queue from the table, any
write still pending in that queue is abandoned: over every subsequent trace
of dispatcher operations (with resolver identities never reused), no
completion — neither resolve nor reject — ever fires for it. -/
theorem removed_queue_abandons_pending_writes (s : DispatcherState) (lflag : Bool)
    (i rid : Nat) (l1 l2 : List SendQueue) (q : SendQueue) (trace : List Event)
    (hqs : s.queues = l1 ++ q :: l2)
    (hl1 : ∀ r ∈ l1, queueKeyIs lflag i r = false)
    (hkey : queueKeyIs lflag i q = true)
    (hpend : (q.queue.any fun t => t.resolverId == rid) = true)
    (hothers : ((l1 ++ l2).any fun p => p.queue.any fun t => t.resolverId == rid) = false)
    (hfresh : ∀ e ∈ trace, eventEnqueuesRid e rid = false) :
    ∀ c ∈ (run (stepEvent s (.channelClose lflag i)).1 trace).2, c.rid ≠ rid := by
  have hrm : (stepEvent s (.channelClose lflag i)).1
      = { s with queues := l1 ++ l2 } := by
    simp only [stepEvent]
    rw [hqs, removeFirst_append _ _ _ _ hl1 hkey]
  rw [hrm]
  apply run_no_completion_for_missing
  · show ((l1 ++ l2).any fun p => p.queue.any fun t => t.resolverId == rid) = false
    exact hothers
  · exact hfresh

/-- C7 witness: queue `(true, 0)` holds the pending write with resolver 5;
its channel closes; over a trace that keeps scheduling the surviving queue,
enqueues new writes and drains control frames, no completion for resolver 5
ever fires. -/
theorem removed_queue_abandons_pending_writes_witness :
    (DispatcherState.mk [⟨true, 0, [⟨5, [1]⟩], false, 0⟩, ⟨true, 1, [⟨6, [2]⟩], false, 0⟩]
        []).queues = [] ++ (⟨true, 0, [⟨5, [1]⟩], false, 0⟩ : SendQueue)
          :: [⟨true, 1, [⟨6, [2]⟩], false, 0⟩]
    ∧ queueKeyIs true 0 ⟨true, 0, [⟨5, [1]⟩], false, 0⟩ = true
    ∧ ((⟨true, 0, [⟨5, [1]⟩], false, 0⟩ : SendQueue).queue.any
        fun t => t.resolverId == 5) = true
    ∧ (∀ c ∈ (run (stepEvent ⟨[⟨true, 0, [⟨5, [1]⟩], false, 0⟩, ⟨true, 1, [⟨6, [2]⟩], false, 0⟩], []⟩
          (.channelClose true 0)).1
        [.dataStep 3 true, .sendData true 1 9 [4], .dataStep 7 true, .drainControl]).2,
        c.rid ≠ 5) :=
  ⟨rfl, rfl, rfl,
    removed_queue_abandons_pending_writes
      ⟨[⟨true, 0, [⟨5, [1]⟩], false, 0⟩, ⟨true, 1, [⟨6, [2]⟩], false, 0⟩], []⟩
      true 0 5 [] [⟨true, 1, [⟨6, [2]⟩], false, 0⟩] ⟨true, 0, [⟨5, [1]⟩], false, 0⟩
      [.dataStep 3 true, .sendData true 1 9 [4], .dataStep 7 true, .drainControl]
      rfl (by simp) rfl rfl rfl (by decide)⟩

end MultiplexWebSocket
